import Mathlib

/-!
# Verification of the Symbiote task scheduling / secure transport core

Shallow embedding of the parts of the Groot-iQ Symbiote codebase that the
specification's claims are about:

* `src/utils/security.py` — `SecurityManager.generate_token` / `verify_token`;
* `src/agent/core/task_manager.py` — `TaskManager.add_task`, `stop_task`,
  `_scheduler_loop`, `_try_migrate_task`;
* `src/agent/communication/communication_layer.py` — `_discovery_loop`,
  `receive_data`.

Python dictionaries are embedded as insertion-ordered key/value lists,
machine floats used as timestamps and resource quantities as naturals, and
every external collaborator (HMAC primitive, Fernet decryption, device
adapter, transport send results, wall clock) as an explicit function
parameter, so that each embedded operation is a pure executable function of
its inputs.
-/

namespace Symbiote

/-- A Python `dict` with string keys: an insertion-ordered key/value list. -/
abbrev Dict (α : Type) : Type := List (String × α)

/-- Python `k in d`: key membership. -/
def dictHasKey {α : Type} (d : Dict α) (k : String) : Bool :=
  d.any (fun kv => kv.1 == k)

/-- Python `d.get(k, default)`. -/
def dictGet {α : Type} (d : Dict α) (k : String) (default : α) : α :=
  match d.find? (fun kv => kv.1 == k) with
  | some kv => kv.2
  | none => default

/-- Python `d.get(k)`: the value at `k`, if any. -/
def dictFind {α : Type} (d : Dict α) (k : String) : Option α :=
  (d.find? (fun kv => kv.1 == k)).map Prod.snd

/-- Python `d[k] = v`: overwrite in place when the key exists (a dict keeps
the original insertion position of an existing key), append otherwise. -/
def dictSet {α : Type} (d : Dict α) (k : String) (v : α) : Dict α :=
  if dictHasKey d k then d.map (fun kv => if kv.1 == k then (k, v) else kv)
  else d ++ [(k, v)]

/-- Python `del d[k]`. -/
def dictDel {α : Type} (d : Dict α) (k : String) : Dict α :=
  d.filter (fun kv => kv.1 != k)

/-! ## Security manager (src/utils/security.py)

`generate_token` reads exactly one field of its `data` argument:
`data.get('id', '')`.  The HMAC-SHA256 primitive comes from Python's `hmac`
library, which is external to this repository; it enters the embedding as a
function parameter `hmacF` standing for
`hmac.new(self.encryption_key, ·, hashlib.sha256).hexdigest()` with the
manager's key folded in.  Only determinism of `hmacF` is used by the
theorems below, so they hold for the real primitive. -/

/-- The part of a data dictionary that `generate_token` reads: its optional
`id` entry (`data.get('id', '')`). -/
structure TokenData where
  id : Option String
deriving DecidableEq, Repr

namespace SecurityManager

/-- `SecurityManager.generate_token` (src/utils/security.py:49):
`message = f"{data.get('id', '')}:{time.time()}"`, then HMAC-SHA256 of the
message under the manager's key.  `now` is the wall-clock reading
`time.time()` at the moment of the call. -/
def generate_token (hmacF : String → String) (data : TokenData) (now : Nat) : String :=
  hmacF ((data.id.getD "") ++ ":" ++ toString now)

/-- `SecurityManager.verify_token` (src/utils/security.py:71): recompute a
fresh token from `data` — including the wall-clock time `now` at the moment
of the verification call — and compare with `hmac.compare_digest`, whose
boolean result is equality of the two strings, computed in constant time. -/
def verify_token (hmacF : String → String) (token : String) (data : TokenData) (now : Nat) : Bool :=
  token == generate_token hmacF data now

end SecurityManager

/-! ## Inbound envelope handling (src/agent/communication/communication_layer.py) -/

/-- The wire envelope `{signature, data}` handled by
`CommunicationLayer.receive_data`; `data` is the encrypted payload. -/
structure Envelope where
  signature : String
  data : String
deriving DecidableEq, Repr

/-- `receive_data` verifies `data['signature']` against the envelope dict
itself; that dict has no `id` key, so `generate_token` reads
`data.get('id', '') = ''`. -/
def Envelope.tokenData (_ : Envelope) : TokenData := { id := none }

/-- Result of one `receive_data` call, instrumented with which collaborators
were invoked: `decryptCalled` records whether `self.security.decrypt_data`
was reached, `handled` the plaintext passed to
`agent_core.handle_received_data` (`none` = the handler was never invoked). -/
structure ReceiveResult where
  ok : Bool
  decryptCalled : Bool
  handled : Option String
deriving DecidableEq, Repr

/-- `CommunicationLayer.receive_data`
(src/agent/communication/communication_layer.py:266): verify the signature
first and return `False` on mismatch, without decrypting and without calling
the inbound-data handler.  On success, decrypt (`decryptF` models the
`self.security.decrypt_data(...)` call; `none` = the call raised, which the
surrounding `except` turns into `False`) and hand the plaintext to the
orchestrator's handler `handleF`. -/
def receive_data (hmacF : String → String) (decryptF : String → Option String)
    (handleF : String → Bool) (now : Nat) (env : Envelope) : ReceiveResult :=
  if SecurityManager.verify_token hmacF env.signature env.tokenData now then
    match decryptF env.data with
    | some plain => { ok := handleF plain, decryptCalled := true, handled := some plain }
    | none => { ok := false, decryptCalled := true, handled := none }
  else
    { ok := false, decryptCalled := false, handled := none }

/-! ## Task manager data model (src/agent/core/task_manager.py) -/

/-- A task dictionary, with the fields the scheduler reads.  Resource
quantities are embedded as naturals. -/
structure Task where
  id : String
  description : String := ""
  required_capabilities : List String := []
  required_resources : Dict Nat := []
deriving DecidableEq, Repr

/-- The task manager's configuration: `max_concurrent` and
`priority_levels`, fixed at construction. -/
structure TMConfig where
  max_concurrent : Nat
  priority_levels : Nat
deriving DecidableEq, Repr

/-- The task manager's mutable state: `self.task_queues` (one FIFO list per
priority level, index 0 = highest), `self.active_tasks` (dict keyed by task
id) and `self.running`. -/
structure TMState where
  task_queues : List (List Task)
  active_tasks : Dict Task
  running : Bool
deriving DecidableEq, Repr

/-- `self.task_queues[p]`, with the out-of-range reading `[]`. -/
def queueAt (qs : List (List Task)) (p : Nat) : List Task :=
  qs.getD p []

/-- The state built by `TaskManager.__init__`: `priority_levels` empty
queues, no active tasks, not running. -/
def initState (tm : TMConfig) : TMState :=
  { task_queues := List.replicate tm.priority_levels []
    active_tasks := []
    running := false }

/-- `TaskManager.add_task` (src/agent/core/task_manager.py:97): reject a
priority outside `[0, priority_levels)` with `False`; otherwise append the
task to the matching queue (under the scheduler lock) and return `True`.
The priority is a Python `int`, so it is embedded as `Int`. -/
def add_task (tm : TMConfig) (s : TMState) (task : Task) (priority : Int) : Bool × TMState :=
  if priority < 0 ∨ (tm.priority_levels : Int) ≤ priority then (false, s)
  else
    (true,
     { s with
        task_queues :=
          s.task_queues.set priority.toNat (queueAt s.task_queues priority.toNat ++ [task]) })

/-- `TaskManager.stop_task` (src/agent/core/task_manager.py:127): if the id
is active, ask the device adapter to stop it (`backendStop` models
`self.agent_core.device_adapter.stop_task`); only when the adapter reports
success is the entry deleted and `True` returned.  Otherwise `False`, state
untouched. -/
def stop_task (backendStop : String → Bool) (s : TMState) (task_id : String) : Bool × TMState :=
  if dictHasKey s.active_tasks task_id then
    if backendStop task_id then
      (true, { s with active_tasks := dictDel s.active_tasks task_id })
    else (false, s)
  else (false, s)

/-! ## Device directory records (src/agent/communication/communication_layer.py)

A device record as held in `self.available_devices`: the device info a
transport handler reported, with the keys the core reads or writes.
Capability values are embedded by their Python truthiness. -/

/-- One entry of `available_devices`. -/
structure DeviceRecord where
  capabilities : Dict Bool := []
  protocol : String := ""
  last_seen : Nat := 0
deriving DecidableEq, Repr

/-! ## Migration (src/agent/core/task_manager.py:196, `_try_migrate_task`) -/

/-- The task-offer message `{'type': 'task', 'task': task, 'priority': priority}`. -/
structure TaskMessage where
  type : String
  task : Task
  priority : Nat
deriving DecidableEq, Repr

/-- The message `_try_migrate_task` sends. -/
def taskOffer (task : Task) (priority : Nat) : TaskMessage :=
  { type := "task", task := task, priority := priority }

/-- The eligibility test of `_try_migrate_task`
(src/agent/core/task_manager.py:214):
`all(cap in capabilities for cap in task.get('required_capabilities', []))`
— key membership in the device's capability dict; the capability's value is
not inspected, and resource quantities are not checked. -/
def migrationEligible (info : DeviceRecord) (task : Task) : Bool :=
  task.required_capabilities.all (fun cap => dictHasKey info.capabilities cap)

/-- Eligibility as the specification words it, for comparison with
`migrationEligible`: every required capability name "present (truthy) in its
capability set". -/
def migrationEligibleSpec (info : DeviceRecord) (task : Task) : Bool :=
  task.required_capabilities.all (fun cap => dictGet info.capabilities cap false)

/-- `self.task_queues[priority].pop(0)`: drop the head of queue `p`. -/
def popHead (qs : List (List Task)) (p : Nat) : List (List Task) :=
  qs.set p ((queueAt qs p).drop 1)

/-- The device loop of `_try_migrate_task`
(src/agent/core/task_manager.py:211): walk the directory in order; for each
device whose capability dict has every required capability name, send the
task offer (`sendOk` models the result of
`self.agent_core.communication.send_data`); on the first successful send,
pop the head of queue `priority` and stop; a failed send falls through to
the next device.  Returns the sends attempted (in order) and the resulting
queues. -/
def tryMigrateGo (sendOk : String → Bool) (task : Task) (priority : Nat)
    (queues : List (List Task)) :
    List (String × DeviceRecord) → List (String × TaskMessage) × List (List Task)
  | [] => ([], queues)
  | (did, info) :: rest =>
    if migrationEligible info task then
      if sendOk did then ([(did, taskOffer task priority)], popHead queues priority)
      else
        ((did, taskOffer task priority) :: (tryMigrateGo sendOk task priority queues rest).1,
         (tryMigrateGo sendOk task priority queues rest).2)
    else tryMigrateGo sendOk task priority queues rest

/-- `TaskManager._try_migrate_task` (src/agent/core/task_manager.py:196):
`devices` is `self.agent_core.communication.get_available_devices()` in
directory order. -/
def tryMigrateTask (devices : List (String × DeviceRecord)) (sendOk : String → Bool)
    (task : Task) (priority : Nat) (queues : List (List Task)) :
    List (String × TaskMessage) × List (List Task) :=
  tryMigrateGo sendOk task priority queues devices

/-! ## Scheduler loop (src/agent/core/task_manager.py:150, `_scheduler_loop`) -/

/-- The execution backend (device adapter) as the scheduler consumes it:
`can_execute_task`, `execute_task` and `stop_task` results. -/
structure Backend where
  canExec : Task → Bool
  execOk : Task → Bool
  stopOk : String → Bool

/-- Events of one scheduler tick, recorded for the ordering and migration
theorems: tasks considered (with their priority), tasks dispatched into
`active_tasks`, tasks passed to `_try_migrate_task`, and offers sent. -/
structure TickTrace where
  considered : List (Nat × Task) := []
  dispatched : List (Nat × Task) := []
  migrated : List Task := []
  sends : List (String × TaskMessage) := []
deriving Repr

/-- The empty trace. -/
def TickTrace.empty : TickTrace := {}

/-- The head-of-first-non-empty-queue selection of the scheduler loop
(src/agent/core/task_manager.py:169): scan queues from priority 0 upward and
take the head of the first non-empty one. -/
def findTask : List (List Task) → Option (Nat × Task)
  | [] => none
  | q :: rest =>
    match q with
    | t :: _ => some (0, t)
    | [] => (findTask rest).map (fun pt => (pt.1 + 1, pt.2))

/-- Total number of queued tasks; an upper bound on the iterations of the
inner `while` loop of one tick. -/
def totalQueued (qs : List (List Task)) : Nat :=
  (qs.map List.length).sum

/-- The inner `while len(self.active_tasks) < self.max_concurrent` loop of
`_scheduler_loop` (src/agent/core/task_manager.py:163): while a slot is
free, select the head of the first non-empty queue; if the device adapter
can execute it, pop it, execute, and on success record it active (keyed by
`task['id']`); if the adapter cannot, call `_try_migrate_task` and leave the
loop for this tick.  `fuel` bounds the recursion; one task is popped before
every recursive call, so `totalQueued + 1` is always enough. -/
def schedTickGo (tm : TMConfig) (backend : Backend) (devices : List (String × DeviceRecord))
    (sendOk : String → Bool) : Nat → TMState → TickTrace → TMState × TickTrace
  | 0, s, tr => (s, tr)
  | fuel + 1, s, tr =>
    if s.active_tasks.length < tm.max_concurrent then
      match findTask s.task_queues with
      | none => (s, tr)
      | some (p, task) =>
        if backend.canExec task then
          if backend.execOk task then
            schedTickGo tm backend devices sendOk fuel
              { s with
                  task_queues := popHead s.task_queues p
                  active_tasks := dictSet s.active_tasks task.id task }
              { tr with
                  considered := tr.considered ++ [(p, task)]
                  dispatched := tr.dispatched ++ [(p, task)] }
          else
            schedTickGo tm backend devices sendOk fuel
              { s with task_queues := popHead s.task_queues p }
              { tr with considered := tr.considered ++ [(p, task)] }
        else
          ({ s with task_queues := (tryMigrateTask devices sendOk task p s.task_queues).2 },
           { tr with
              considered := tr.considered ++ [(p, task)]
              migrated := tr.migrated ++ [task]
              sends := tr.sends ++ (tryMigrateTask devices sendOk task p s.task_queues).1 })
    else (s, tr)

/-- One iteration of the outer `while self.running` loop of
`_scheduler_loop`. -/
def schedulerTick (tm : TMConfig) (backend : Backend) (devices : List (String × DeviceRecord))
    (sendOk : String → Bool) (s : TMState) : TMState × TickTrace :=
  if s.running then
    schedTickGo tm backend devices sendOk (totalQueued s.task_queues + 1) s TickTrace.empty
  else (s, TickTrace.empty)

/-- `TaskManager.stop` (src/agent/core/task_manager.py:72): clear the
running flag, then call `stop_task` on a snapshot of the active task ids. -/
def tmStop (backend : Backend) (s : TMState) : TMState :=
  let s1 := { s with running := false }
  (s1.active_tasks.map Prod.fst).foldl (fun st tid => (stop_task backend.stopOk st tid).2) s1

/-- One operation against the task manager; tick operations carry the
device-directory snapshot and send results their migration step sees. -/
inductive Op where
  | start : Op
  | stop : Op
  | add (task : Task) (priority : Int) : Op
  | cancel (task_id : String) : Op
  | tick (devices : List (String × DeviceRecord)) (sendOk : String → Bool) : Op

/-- Apply one operation; also return the tasks passed to
`_try_migrate_task` during it. -/
def runOp (tm : TMConfig) (backend : Backend) (s : TMState) : Op → TMState × List Task
  | .start => ({ s with running := true }, [])
  | .stop => (tmStop backend s, [])
  | .add task priority => ((add_task tm s task priority).2, [])
  | .cancel tid => ((stop_task backend.stopOk s tid).2, [])
  | .tick devices sendOk =>
    let r := schedulerTick tm backend devices sendOk s
    (r.1, r.2.migrated)

/-- Run a sequence of operations from a state, accumulating every task
passed to the migration step. -/
def runOps (tm : TMConfig) (backend : Backend) : TMState → List Op → TMState × List Task
  | s, [] => (s, [])
  | s, op :: ops =>
    let r := runOp tm backend s op
    let rest := runOps tm backend r.1 ops
    (rest.1, r.2 ++ rest.2)

/-! ## Desktop adapter capability check (src/agent/device/desktop_adapter.py:188) -/

/-- `DesktopAdapter.can_execute_task`: every required capability must be
present with a truthy value in `self.capabilities`, and every required
resource quantity must not exceed the matching available quantity
(`available.get(resource, 0) < amount` rejects). -/
def can_execute_task (capabilities : Dict Bool) (available : Dict Nat) (t : Task) : Bool :=
  t.required_capabilities.all (fun c => dictGet capabilities c false)
    && t.required_resources.all (fun r => decide (r.2 ≤ dictGet available r.1 0))

/-- The scheduler's execution backend built from a desktop adapter whose
capability and resource views are fixed. -/
def desktopBackend (capabilities : Dict Bool) (available : Dict Nat)
    (execOk : Task → Bool) (stopOk : String → Bool) : Backend :=
  { canExec := can_execute_task capabilities available
    execOk := execOk
    stopOk := stopOk }

/-! ## Discovery loop (src/agent/communication/communication_layer.py:112) -/

/-- The communication layer's device-tracking state: `available_devices`
and `device_status`. -/
structure CommState where
  available_devices : Dict DeviceRecord
  device_status : Dict String
deriving DecidableEq, Repr

/-- The inner per-device loop of one discovery cycle
(src/agent/communication/communication_layer.py:137): stamp
`protocol` and `last_seen = now` on the reported info, merge it into the
fresh `discovered` dict, apply the status transition (absent → `'new'`,
`'disconnected'` → `'reconnected'`, otherwise unchanged) and notify the
agent core of the current status. -/
def processDiscovered (now : Nat) (proto : String) :
    List (String × DeviceRecord) → Dict DeviceRecord → Dict String → List (String × String) →
    Dict DeviceRecord × Dict String × List (String × String)
  | [], discovered, status, notifs => (discovered, status, notifs)
  | (did, info) :: rest, discovered, status, notifs =>
    let info2 := { info with protocol := proto, last_seen := now }
    let discovered2 := dictSet discovered did info2
    let status2 :=
      if dictHasKey status did = false then dictSet status did "new"
      else if dictFind status did = some "disconnected" then dictSet status did "reconnected"
      else status
    processDiscovered now proto rest discovered2 status2
      (notifs ++ [(did, dictGet status2 did "")])

/-- The per-protocol loop of one discovery cycle
(src/agent/communication/communication_layer.py:129). -/
def processProtocols (now : Nat) :
    List (String × List (String × DeviceRecord)) → Dict DeviceRecord → Dict String →
    List (String × String) → Dict DeviceRecord × Dict String × List (String × String)
  | [], discovered, status, notifs => (discovered, status, notifs)
  | (proto, devs) :: rest, discovered, status, notifs =>
    let r := processDiscovered now proto devs discovered status notifs
    processProtocols now rest r.1 r.2.1 r.2.2

/-- The staleness sweep of one discovery cycle
(src/agent/communication/communication_layer.py:159): over the entries of
the (just replaced) `available_devices`, mark `'disconnected'` and notify
when `current_time - last_seen > discovery_interval * 2`. -/
def sweepDisconnected (interval : Nat) (currentTime : Nat) :
    List (String × DeviceRecord) → Dict String → List (String × String) →
    Dict String × List (String × String)
  | [], status, notifs => (status, notifs)
  | (did, info) :: rest, status, notifs =>
    if interval * 2 < currentTime - info.last_seen then
      sweepDisconnected interval currentTime rest (dictSet status did "disconnected")
        (notifs ++ [(did, "disconnected")])
    else sweepDisconnected interval currentTime rest status notifs

/-- One cycle of `CommunicationLayer._discovery_loop`
(src/agent/communication/communication_layer.py:123): start from an empty
`discovered` dict, fold in every protocol handler's reported devices
(`results` models `handler.discover_devices()` per protocol, in handler
order), **replace** `self.available_devices` by `discovered`, then run the
staleness sweep over the replaced dict.  `now` is the `time.time()` stamped
on each discovered record, `currentTime` the `time.time()` read before the
sweep.  Returns the new state and the status notifications delivered to
`agent_core.handle_device_status_change`, in order. -/
def discoveryCycle (interval : Nat) (now : Nat) (currentTime : Nat) (st : CommState)
    (results : List (String × List (String × DeviceRecord))) :
    CommState × List (String × String) :=
  let r := processProtocols now results [] st.device_status []
  let sw := sweepDisconnected interval currentTime r.1 r.2.1 r.2.2
  ({ available_devices := r.1, device_status := sw.1 }, sw.2)

/-! ## Fixtures for witnesses and counterexamples -/

/-- A task requiring the `wifi` capability. -/
def exTask : Task := { id := "t1", required_capabilities := ["wifi"] }

/-- A task requiring the `camera` capability. -/
def camTask : Task := { id := "t2", required_capabilities := ["camera"] }

/-- A small configuration: one slot, two priority levels. -/
def tmEx : TMConfig := { max_concurrent := 1, priority_levels := 2 }

/-- A communication-layer state knowing one device `d1`, last observed at
time 0 over wifi, status `new`. -/
def staleCommState : CommState :=
  { available_devices :=
      [("d1", { capabilities := [("camera", true)], protocol := "wifi", last_seen := 0 })]
    device_status := [("d1", "new")] }

/-! ## Helper lemmas -/

theorem queueAt_set_self (qs : List (List Task)) (p : Nat) (l : List Task)
    (h : p < qs.length) : queueAt (qs.set p l) p = l := by
  simp [queueAt, List.getElem?_set_self h]

theorem queueAt_set_ne (qs : List (List Task)) (p q : Nat) (l : List Task)
    (h : q ≠ p) : queueAt (qs.set p l) q = queueAt qs q := by
  simp [queueAt, List.getElem?_set_ne (Ne.symm h)]

theorem queueAt_ge_length (qs : List (List Task)) (p : Nat) (h : qs.length ≤ p) :
    queueAt qs p = [] := by
  simp [queueAt, List.getElem?_eq_none h]

theorem queueAt_popHead_self (qs : List (List Task)) (p : Nat) :
    queueAt (popHead qs p) p = (queueAt qs p).drop 1 := by
  rcases Nat.lt_or_ge p qs.length with h | h
  · exact queueAt_set_self qs p _ h
  · rw [popHead, List.set_eq_of_length_le h, queueAt_ge_length qs p h]
    rfl

theorem queueAt_popHead_ne (qs : List (List Task)) (p q : Nat) (h : q ≠ p) :
    queueAt (popHead qs p) q = queueAt qs q :=
  queueAt_set_ne qs p q _ h

theorem dictHasKey_dictDel {α : Type} (d : Dict α) (k : String) :
    dictHasKey (dictDel d k) k = false := by
  induction d with
  | nil => rfl
  | cons kv rest ih =>
    by_cases h : kv.1 = k
    · simp only [dictDel, List.filter_cons, h, bne_self_eq_false, if_false, Bool.false_eq_true]
      exact ih
    · simp [dictDel, dictHasKey, List.filter_cons, h]

theorem dictDel_length_le {α : Type} (d : Dict α) (k : String) :
    (dictDel d k).length ≤ d.length :=
  List.length_filter_le _ d

theorem dictSet_length_le {α : Type} (d : Dict α) (k : String) (v : α) :
    (dictSet d k v).length ≤ d.length + 1 := by
  unfold dictSet
  split
  · simp [Nat.le_succ_of_le]
  · simp

theorem add_task_preserves_active (tm : TMConfig) (s : TMState) (task : Task) (priority : Int) :
    (add_task tm s task priority).2.active_tasks = s.active_tasks := by
  unfold add_task
  split <;> rfl

theorem add_task_preserves_running (tm : TMConfig) (s : TMState) (task : Task) (priority : Int) :
    (add_task tm s task priority).2.running = s.running := by
  unfold add_task
  split <;> rfl

theorem stop_task_active_length_le (backendStop : String → Bool) (s : TMState) (tid : String) :
    (stop_task backendStop s tid).2.active_tasks.length ≤ s.active_tasks.length := by
  unfold stop_task
  split
  · split
    · exact dictDel_length_le _ _
    · exact Nat.le_refl _
  · exact Nat.le_refl _

theorem queueAt_cons_zero (q : List Task) (rest : List (List Task)) :
    queueAt (q :: rest) 0 = q := rfl

theorem queueAt_cons_succ (q : List Task) (rest : List (List Task)) (n : Nat) :
    queueAt (q :: rest) (n + 1) = queueAt rest n := rfl

theorem queueAt_popHead_ne_nil (qs : List (List Task)) (p q : Nat)
    (h : queueAt (popHead qs p) q ≠ []) : queueAt qs q ≠ [] := by
  by_cases hq : q = p
  · subst hq
    rw [queueAt_popHead_self] at h
    intro hnil
    exact h (by rw [hnil]; rfl)
  · rwa [queueAt_popHead_ne _ _ _ hq] at h

/-- `findTask` returns exactly the head of the lowest-indexed non-empty
queue: at the returned priority the queue starts with the returned task,
and every lower-indexed queue is empty. -/
theorem findTask_spec :
    ∀ (qs : List (List Task)) (p : Nat) (t : Task), findTask qs = some (p, t) →
      (∃ restq, queueAt qs p = t :: restq) ∧ ∀ q, q < p → queueAt qs q = [] := by
  intro qs
  induction qs with
  | nil =>
    intro p t h
    simp [findTask] at h
  | cons q rest ih =>
    intro p t h
    rcases q with _ | ⟨t0, q'⟩
    · rw [findTask] at h
      simp only [Option.map_eq_some'] at h
      rcases h with ⟨⟨p', t'⟩, hfr, heq⟩
      simp only at heq
      injection heq with h1 h2
      subst h1
      subst h2
      rcases ih p' t' hfr with ⟨⟨restq, hqeq⟩, hlow⟩
      refine ⟨⟨restq, by rw [queueAt_cons_succ]; exact hqeq⟩, ?_⟩
      intro q2 hq2
      cases q2 with
      | zero => exact queueAt_cons_zero [] rest
      | succ m =>
        rw [queueAt_cons_succ]
        exact hlow m (by omega)
    · rw [findTask] at h
      cases h
      exact ⟨⟨q', rfl⟩, fun q2 hq2 => absurd hq2 (Nat.not_lt_zero _)⟩

theorem foldl_stop_active_le (stopOk : String → Bool) (tids : List String) (s : TMState) :
    (tids.foldl (fun st tid => (stop_task stopOk st tid).2) s).active_tasks.length
      ≤ s.active_tasks.length := by
  induction tids generalizing s with
  | nil => exact Nat.le_refl _
  | cons t rest ih =>
    simp only [List.foldl_cons]
    exact Nat.le_trans (ih _) (stop_task_active_length_le stopOk s t)

theorem schedTickGo_active_le (tm : TMConfig) (backend : Backend)
    (devices : List (String × DeviceRecord)) (sendOk : String → Bool) :
    ∀ (fuel : Nat) (s : TMState) (tr : TickTrace), s.active_tasks.length ≤ tm.max_concurrent →
      (schedTickGo tm backend devices sendOk fuel s tr).1.active_tasks.length
        ≤ tm.max_concurrent := by
  intro fuel
  induction fuel with
  | zero =>
    intro s tr h
    exact h
  | succ n ih =>
    intro s tr h
    rw [schedTickGo]
    split
    · rename_i hlt
      rcases hft : findTask s.task_queues with _ | ⟨p, task⟩
      · simp only [hft]
        exact h
      · simp only [hft]
        split
        · split
          · exact ih _ _ (Nat.le_trans (dictSet_length_le _ _ _) hlt)
          · exact ih _ _ h
        · exact h
    · exact h

theorem runOp_active_le (tm : TMConfig) (backend : Backend) (s : TMState) (op : Op)
    (h : s.active_tasks.length ≤ tm.max_concurrent) :
    (runOp tm backend s op).1.active_tasks.length ≤ tm.max_concurrent := by
  cases op with
  | start => exact h
  | stop =>
    exact Nat.le_trans (foldl_stop_active_le _ _ _) h
  | add task priority =>
    simpa [runOp, add_task_preserves_active] using h
  | cancel tid =>
    exact Nat.le_trans (stop_task_active_length_le _ _ _) h
  | tick devices sendOk =>
    simp only [runOp, schedulerTick]
    split
    · exact schedTickGo_active_le _ _ _ _ _ _ _ h
    · exact h

theorem schedTickGo_migrated_spec (tm : TMConfig) (backend : Backend)
    (devices : List (String × DeviceRecord)) (sendOk : String → Bool) :
    ∀ (fuel : Nat) (s : TMState) (tr : TickTrace) (x : Task),
      x ∈ (schedTickGo tm backend devices sendOk fuel s tr).2.migrated →
      x ∈ tr.migrated ∨ backend.canExec x = false := by
  intro fuel
  induction fuel with
  | zero =>
    intro s tr x hx
    exact Or.inl hx
  | succ n ih =>
    intro s tr x hx
    rw [schedTickGo] at hx
    split at hx
    · rcases hft : findTask s.task_queues with _ | ⟨p, task⟩
      · rw [hft] at hx
        exact Or.inl hx
      · rw [hft] at hx
        simp only at hx
        split at hx
        · split at hx
          · rcases ih _ _ _ hx with h | h
            · exact Or.inl h
            · exact Or.inr h
          · rcases ih _ _ _ hx with h | h
            · exact Or.inl h
            · exact Or.inr h
        · rename_i hcan
          simp only [Bool.not_eq_true] at hcan
          simp only [List.mem_append, List.mem_singleton] at hx
          rcases hx with hx | rfl
          · exact Or.inl hx
          · exact Or.inr hcan
    · exact Or.inl hx

theorem runOps_migrated_canExec (tm : TMConfig) (backend : Backend) :
    ∀ (ops : List Op) (s : TMState) (x : Task),
      x ∈ (runOps tm backend s ops).2 → backend.canExec x = false := by
  intro ops
  induction ops with
  | nil =>
    intro s x hx
    simp [runOps] at hx
  | cons op rest ih =>
    intro s x hx
    rw [runOps] at hx
    simp only [List.mem_append] at hx
    rcases hx with h1 | h2
    · cases op with
      | start => simp [runOp] at h1
      | stop => simp [runOp] at h1
      | add task priority => simp [runOp] at h1
      | cancel tid => simp [runOp] at h1
      | tick devices sendOk =>
        simp only [runOp, schedulerTick] at h1
        split at h1
        · rcases schedTickGo_migrated_spec tm backend devices sendOk _ _ _ _ h1 with h | h
          · simp [TickTrace.empty] at h
          · exact h
        · simp [TickTrace.empty] at h1
    · exact ih _ _ h2

theorem tryMigrateGo_sends_spec (sendOk : String → Bool) (task : Task) (priority : Nat)
    (queues : List (List Task)) :
    ∀ (devices : List (String × DeviceRecord)),
      ∀ e ∈ (tryMigrateGo sendOk task priority queues devices).1,
        e.2 = taskOffer task priority
        ∧ ∃ info, (e.1, info) ∈ devices ∧ migrationEligible info task = true := by
  intro devices
  induction devices with
  | nil =>
    intro e he
    simp [tryMigrateGo] at he
  | cons d rest ih =>
    intro e he
    rw [tryMigrateGo] at he
    split at he
    · rename_i helig
      split at he
      · simp only [List.mem_singleton] at he
        subst he
        exact ⟨rfl, d.2, by simp, helig⟩
      · simp only [List.mem_cons] at he
        rcases he with rfl | he
        · exact ⟨rfl, d.2, by simp, helig⟩
        · rcases ih e he with ⟨h1, info, h2, h3⟩
          exact ⟨h1, info, List.mem_cons_of_mem _ h2, h3⟩
    · rcases ih e he with ⟨h1, info, h2, h3⟩
      exact ⟨h1, info, List.mem_cons_of_mem _ h2, h3⟩

theorem tryMigrateGo_sends_order (sendOk : String → Bool) (task : Task) (priority : Nat)
    (queues : List (List Task)) :
    ∀ (devices : List (String × DeviceRecord)),
      ∃ k, (tryMigrateGo sendOk task priority queues devices).1.map Prod.fst
        = ((devices.filter (fun d => migrationEligible d.2 task)).map Prod.fst).take k := by
  intro devices
  induction devices with
  | nil => exact ⟨0, rfl⟩
  | cons d rest ih =>
    rw [tryMigrateGo]
    split
    · rename_i helig
      split
      · refine ⟨1, ?_⟩
        simp [List.filter_cons, helig]
      · rcases ih with ⟨k, hk⟩
        refine ⟨k + 1, ?_⟩
        simp only [List.filter_cons, helig, if_true, List.map_cons, List.take_succ_cons,
          List.cons.injEq, true_and]
        exact hk
    · rename_i helig
      rcases ih with ⟨k, hk⟩
      refine ⟨k, ?_⟩
      simp only [List.filter_cons]
      rw [if_neg (by simpa using helig)]
      exact hk

theorem mem_dropLast_cons {α : Type} (a el : α) (l : List α)
    (h : el ∈ (a :: l).dropLast) : (el = a ∧ l ≠ []) ∨ el ∈ l.dropLast := by
  rcases l with _ | ⟨x, xs⟩
  · simp at h
  · rw [List.dropLast_cons₂] at h
    rcases List.mem_cons.mp h with rfl | h'
    · exact Or.inl ⟨rfl, by simp⟩
    · exact Or.inr h'

/-- Every offer of one migration attempt except the last was rejected by
the transport: the device loop never keeps scanning past an accepted
send. -/
theorem tryMigrateGo_sends_fail_before_last (sendOk : String → Bool) (task : Task)
    (priority : Nat) (queues : List (List Task)) :
    ∀ (devices : List (String × DeviceRecord)),
      ∀ e ∈ (tryMigrateGo sendOk task priority queues devices).1.dropLast,
        sendOk e.1 = false := by
  intro devices
  induction devices with
  | nil =>
    intro e he
    simp [tryMigrateGo] at he
  | cons d rest ih =>
    intro e he
    rw [tryMigrateGo] at he
    split at he
    · split at he
      · simp at he
      · rename_i hsend
        rw [Bool.not_eq_true] at hsend
        replace he : e ∈ ((d.1, taskOffer task priority)
            :: (tryMigrateGo sendOk task priority queues rest).1).dropLast := he
        rcases mem_dropLast_cons _ _ _ he with ⟨rfl, -⟩ | he'
        · exact hsend
        · exact ih e he'
    · exact ih e he

/-- One migration attempt stops only for one of two reasons: it ran out of
eligible devices (one offer per eligible device), or its final offer was
the accepted one. -/
theorem tryMigrateGo_sends_stop (sendOk : String → Bool) (task : Task) (priority : Nat)
    (queues : List (List Task)) :
    ∀ (devices : List (String × DeviceRecord)),
      (tryMigrateGo sendOk task priority queues devices).1.length
          = (devices.filter (fun d => migrationEligible d.2 task)).length
      ∨ ∃ e, (tryMigrateGo sendOk task priority queues devices).1.getLast? = some e
          ∧ sendOk e.1 = true := by
  intro devices
  induction devices with
  | nil => exact Or.inl rfl
  | cons d rest ih =>
    rw [tryMigrateGo]
    split
    · rename_i helig
      split
      · rename_i hsend
        exact Or.inr ⟨(d.1, taskOffer task priority), by simp, hsend⟩
      · rcases ih with hlen | ⟨e, hlast, hacc⟩
        · left
          simp only [List.filter_cons, helig, if_true, List.length_cons]
          simp [hlen]
        · right
          refine ⟨e, ?_, hacc⟩
          rcases hx : (tryMigrateGo sendOk task priority queues rest).1 with _ | ⟨x, xs⟩
          · rw [hx] at hlast
            exact Option.noConfusion hlast
          · rw [hx] at hlast
            show ((d.1, taskOffer task priority) :: x :: xs).getLast? = some e
            rw [List.getLast?_cons_cons]
            exact hlast
    · rename_i helig
      rcases ih with hlen | hacc
      · left
        simp only [List.filter_cons]
        rw [if_neg (by simpa using helig)]
        exact hlen
      · exact Or.inr hacc

theorem tryMigrateGo_queues_eq (sendOk : String → Bool) (task : Task) (priority : Nat)
    (queues : List (List Task)) :
    ∀ (devices : List (String × DeviceRecord)),
      (tryMigrateGo sendOk task priority queues devices).2
        = if devices.any (fun d => migrationEligible d.2 task && sendOk d.1)
          then popHead queues priority else queues := by
  intro devices
  induction devices with
  | nil => rfl
  | cons d rest ih =>
    rw [tryMigrateGo, List.any_cons]
    by_cases helig : migrationEligible d.2 task = true
    · by_cases hs : sendOk d.1 = true
      · rw [helig, hs]
        simp
      · simp only [Bool.not_eq_true] at hs
        rw [helig, hs]
        simpa using ih
    · simp only [Bool.not_eq_true] at helig
      rw [helig]
      simpa using ih

/-- Structural invariants of one inner scheduler loop: relative to the
incoming trace, the considered list grows by entries drawn from non-empty
queues in non-decreasing priority order, dispatched entries from one queue
are removed head-first (so the per-queue dispatch sequence is a sublist of
the queue), every queue only loses a front segment, the first new
considered entry is the `findTask` selection, and nothing is considered
when no queue has a task. -/
theorem schedTickGo_order_spec (tm : TMConfig) (backend : Backend)
    (devices : List (String × DeviceRecord)) (sendOk : String → Bool) :
    ∀ (fuel : Nat) (s : TMState) (tr : TickTrace),
      ∃ dc dd,
        (schedTickGo tm backend devices sendOk fuel s tr).2.considered = tr.considered ++ dc
        ∧ (schedTickGo tm backend devices sendOk fuel s tr).2.dispatched = tr.dispatched ++ dd
        ∧ (∀ e ∈ dc, queueAt s.task_queues e.1 ≠ [])
        ∧ List.Chain' (fun a b => a ≤ b) (dc.map Prod.fst)
        ∧ (∀ p : Nat,
            ((dd.filter (fun e => e.1 == p)).map Prod.snd).Sublist (queueAt s.task_queues p))
        ∧ (∀ p : Nat, ∃ k,
            queueAt (schedTickGo tm backend devices sendOk fuel s tr).1.task_queues p
              = (queueAt s.task_queues p).drop k)
        ∧ (0 < fuel → s.active_tasks.length < tm.max_concurrent →
            ∀ pt, findTask s.task_queues = some pt → dc.head? = some pt)
        ∧ (findTask s.task_queues = none → dc = []) := by
  intro fuel
  induction fuel with
  | zero =>
    intro s tr
    exact ⟨[], [], by simp [schedTickGo], by simp [schedTickGo], by simp, List.chain'_nil,
      fun p => by simp, fun p => ⟨0, rfl⟩, fun h => absurd h (Nat.lt_irrefl 0), fun _ => rfl⟩
  | succ n ih =>
    intro s tr
    rw [schedTickGo]
    split
    · rename_i hlt
      rcases hft : findTask s.task_queues with _ | ⟨p, task⟩
      · simp only [hft]
        exact ⟨[], [], by simp, by simp, by simp, List.chain'_nil, fun p => by simp,
          fun p => ⟨0, rfl⟩, fun _ _ pt hpt => Option.noConfusion hpt, fun _ => rfl⟩
      · simp only [hft]
        obtain ⟨⟨restq, hq⟩, hlow⟩ := findTask_spec s.task_queues p task hft
        split
        · rename_i hcan
          split
          · rename_i hexec
            obtain ⟨dc', dd', hc, hd, hmem, hch, hsub, hdrop, hhead, hnil⟩ :=
              ih { s with
                    task_queues := popHead s.task_queues p
                    active_tasks := dictSet s.active_tasks task.id task }
                 { tr with
                    considered := tr.considered ++ [(p, task)]
                    dispatched := tr.dispatched ++ [(p, task)] }
            have hple : ∀ e ∈ dc', p ≤ e.1 := by
              intro e he
              by_contra hcon
              have h1 := hmem e he
              have h2 : e.1 ≠ p := by omega
              rw [queueAt_popHead_ne _ _ _ h2] at h1
              exact h1 (hlow e.1 (by omega))
            refine ⟨(p, task) :: dc', (p, task) :: dd', ?_, ?_, ?_, ?_, ?_, ?_, ?_, ?_⟩
            · rw [hc]
              simp
            · rw [hd]
              simp
            · intro e he
              rcases List.mem_cons.mp he with rfl | he'
              · rw [hq]
                simp
              · exact queueAt_popHead_ne_nil _ _ _ (hmem e he')
            · rw [List.map_cons]
              refine List.chain'_cons'.mpr ⟨?_, hch⟩
              intro b hb
              obtain ⟨e, he, rfl⟩ := List.mem_map.mp (List.mem_of_mem_head? hb)
              exact hple e he
            · intro p'
              by_cases hp : p = p'
              · subst hp
                have hs := hsub p
                rw [queueAt_popHead_self, hq] at hs
                rw [List.filter_cons]
                simp only [beq_self_eq_true, if_true, List.map_cons, hq]
                exact List.Sublist.cons₂ _ hs
              · have hbeq : ((p, task).1 == p') = false := beq_eq_false_iff_ne.mpr hp
                rw [List.filter_cons, hbeq]
                have hs := hsub p'
                rw [queueAt_popHead_ne _ _ _ (fun hx => hp hx.symm)] at hs
                simpa using hs
            · intro p'
              obtain ⟨k, hk⟩ := hdrop p'
              by_cases hp : p = p'
              · subst hp
                rw [queueAt_popHead_self] at hk
                exact ⟨k + 1, by rw [hk, List.drop_drop, Nat.add_comm]⟩
              · rw [queueAt_popHead_ne _ _ _ (fun hx => hp hx.symm)] at hk
                exact ⟨k, hk⟩
            · intro _ _ pt hpt
              cases hpt
              rfl
            · intro hnone
              exact Option.noConfusion hnone
          · rename_i hexec
            obtain ⟨dc', dd', hc, hd, hmem, hch, hsub, hdrop, hhead, hnil⟩ :=
              ih { s with task_queues := popHead s.task_queues p }
                 { tr with considered := tr.considered ++ [(p, task)] }
            have hple : ∀ e ∈ dc', p ≤ e.1 := by
              intro e he
              by_contra hcon
              have h1 := hmem e he
              have h2 : e.1 ≠ p := by omega
              rw [queueAt_popHead_ne _ _ _ h2] at h1
              exact h1 (hlow e.1 (by omega))
            refine ⟨(p, task) :: dc', dd', ?_, ?_, ?_, ?_, ?_, ?_, ?_, ?_⟩
            · rw [hc]
              simp
            · rw [hd]
            · intro e he
              rcases List.mem_cons.mp he with rfl | he'
              · rw [hq]
                simp
              · exact queueAt_popHead_ne_nil _ _ _ (hmem e he')
            · rw [List.map_cons]
              refine List.chain'_cons'.mpr ⟨?_, hch⟩
              intro b hb
              obtain ⟨e, he, rfl⟩ := List.mem_map.mp (List.mem_of_mem_head? hb)
              exact hple e he
            · intro p'
              have hs := hsub p'
              by_cases hp : p = p'
              · subst hp
                rw [queueAt_popHead_self, hq] at hs
                rw [hq]
                exact hs.cons _
              · rw [queueAt_popHead_ne _ _ _ (fun hx => hp hx.symm)] at hs
                exact hs
            · intro p'
              obtain ⟨k, hk⟩ := hdrop p'
              by_cases hp : p = p'
              · subst hp
                rw [queueAt_popHead_self] at hk
                exact ⟨k + 1, by rw [hk, List.drop_drop, Nat.add_comm]⟩
              · rw [queueAt_popHead_ne _ _ _ (fun hx => hp hx.symm)] at hk
                exact ⟨k, hk⟩
            · intro _ _ pt hpt
              cases hpt
              rfl
            · intro hnone
              exact Option.noConfusion hnone
        · rename_i hcan
          refine ⟨[(p, task)], [], ?_, ?_, ?_, ?_, ?_, ?_, ?_, ?_⟩
          · rfl
          · simp
          · intro e he
            simp only [List.mem_singleton] at he
            subst he
            rw [hq]
            simp
          · simp
          · intro p'
            simp
          · intro p'
            have hmq := tryMigrateGo_queues_eq sendOk task p s.task_queues devices
            simp only [tryMigrateTask]
            rw [hmq]
            split
            · by_cases hp : p = p'
              · subst hp
                exact ⟨1, queueAt_popHead_self _ _⟩
              · exact ⟨0, queueAt_popHead_ne _ _ _ (fun hx => hp hx.symm)⟩
            · exact ⟨0, rfl⟩
          · intro _ _ pt hpt
            cases hpt
            rfl
          · intro hnone
            exact Option.noConfusion hnone
    · rename_i hnlt
      exact ⟨[], [], by simp, by simp, by simp, List.chain'_nil, fun p => by simp,
        fun p => ⟨0, rfl⟩, fun _ hl => absurd hl hnlt, fun _ => rfl⟩

/-! ## Claim theorems: security and envelope handling -/

/-- C1: for every data dictionary `d`, `verify_token (generate_token d) d`
is true when the verification's wall-clock reading equals the signing's
("verification immediately follows signing"), and `verify_token t' d` at
that same moment is false for every `t'` other than the signed token — in
particular for every single-bit mutation of it, which yields a different
string.  `verify_token` recomputes a fresh token from `d` at the
verification moment and compares in constant time; the statement holds for
every HMAC primitive `hmacF`, using only its determinism. -/
theorem token_sign_verify (hmacF : String → String) (d : TokenData) (t : Nat) :
    SecurityManager.verify_token hmacF (SecurityManager.generate_token hmacF d t) d t = true
    ∧ ∀ t' : String, t' ≠ SecurityManager.generate_token hmacF d t →
        SecurityManager.verify_token hmacF t' d t = false := by
  constructor
  · simp [SecurityManager.verify_token]
  · intro t' h
    simpa [SecurityManager.verify_token] using h

/-- Witness for C1 at a concrete input: with the identity standing in for
the HMAC primitive, data id `"a"` and time `5`, a token other than the
signed one (here `""`) is rejected. -/
theorem token_sign_verify_witness :
    SecurityManager.verify_token (fun s => s) "" { id := some "a" } 5 = false :=
  (token_sign_verify (fun s => s) { id := some "a" } 5).2 "" (by decide)

/-- C8: `receive_data` verifies the envelope signature first; when
verification fails it returns failure, never reaches decryption and never
invokes the orchestrator's inbound-data handler; decryption and handling
are reached only when the signature verifies. -/
theorem receive_data_auth_gate (hmacF : String → String) (decryptF : String → Option String)
    (handleF : String → Bool) (now : Nat) (env : Envelope) :
    (SecurityManager.verify_token hmacF env.signature env.tokenData now = false →
      receive_data hmacF decryptF handleF now env
        = { ok := false, decryptCalled := false, handled := none })
    ∧ ((receive_data hmacF decryptF handleF now env).decryptCalled = true →
        SecurityManager.verify_token hmacF env.signature env.tokenData now = true)
    ∧ (∀ plain : String, (receive_data hmacF decryptF handleF now env).handled = some plain →
        SecurityManager.verify_token hmacF env.signature env.tokenData now = true) := by
  unfold receive_data
  rcases h : SecurityManager.verify_token hmacF env.signature env.tokenData now with _ | _
  · simp
  · simp only [if_true]
    rcases decryptF env.data with _ | plain <;> simp

/-- Witness for C8 at a concrete input: an envelope whose signature `"x"`
does not match the recomputed token is dropped with no decryption and no
handling. -/
theorem receive_data_auth_gate_witness :
    receive_data (fun s => s) (fun s => some s) (fun _ => true) 0 { signature := "x", data := "y" }
      = { ok := false, decryptCalled := false, handled := none } :=
  (receive_data_auth_gate (fun s => s) (fun s => some s) (fun _ => true) 0
      { signature := "x", data := "y" }).1 (by decide)

/-! ## Claim theorems: submit and cancel -/

/-- C5: with `priority_levels = N` queues, `add_task` succeeds iff
`0 ≤ p < N`; on success the task is appended to the tail of queue `p` and
every other queue, the active table and the running flag are unchanged; on
failure (out-of-range priority) it returns `false` and leaves the state
untouched. -/
theorem add_task_priority_range (tm : TMConfig) (s : TMState) (task : Task) (priority : Int)
    (hlen : s.task_queues.length = tm.priority_levels) :
    ((add_task tm s task priority).1 = true
        ↔ 0 ≤ priority ∧ priority < (tm.priority_levels : Int))
    ∧ ((add_task tm s task priority).1 = true →
        queueAt (add_task tm s task priority).2.task_queues priority.toNat
            = queueAt s.task_queues priority.toNat ++ [task]
        ∧ (∀ q : Nat, q ≠ priority.toNat →
            queueAt (add_task tm s task priority).2.task_queues q = queueAt s.task_queues q)
        ∧ (add_task tm s task priority).2.active_tasks = s.active_tasks
        ∧ (add_task tm s task priority).2.running = s.running)
    ∧ ((add_task tm s task priority).1 = false → (add_task tm s task priority).2 = s) := by
  unfold add_task
  split
  · rename_i h
    refine ⟨iff_of_false (by simp) (by omega), ?_, fun _ => rfl⟩
    intro hc
    simp at hc
  · rename_i h
    rcases not_or.mp h with ⟨h1, h2⟩
    have h0 : 0 ≤ priority := by omega
    have hN : priority < (tm.priority_levels : Int) := by omega
    have hp : priority.toNat < s.task_queues.length := by
      rw [hlen]
      omega
    refine ⟨iff_of_true rfl ⟨h0, hN⟩, ?_, ?_⟩
    · intro _
      exact ⟨queueAt_set_self _ _ _ hp, fun q hq => queueAt_set_ne _ _ _ _ hq, rfl, rfl⟩
    · intro hf
      simp at hf

/-- Witness for C5 at a concrete input: two priority levels, empty queues,
priority `0` is accepted. -/
theorem add_task_priority_range_witness :
    (add_task tmEx { task_queues := [[], []], active_tasks := [], running := true }
        exTask 0).1 = true :=
  (add_task_priority_range tmEx { task_queues := [[], []], active_tasks := [], running := true }
      exTask 0 rfl).1.mpr (by decide)

/-- C6 counterexample: `add_task` on a stopped manager (`running = false`)
still returns `true` and appends the task — the claim's "no effect if the
agent is stopped" fails; the code never consults the running flag
(src/agent/core/task_manager.py:113). -/
theorem add_task_when_stopped_counterexample :
    ({ task_queues := [[]], active_tasks := [], running := false } : TMState).running = false
    ∧ (add_task { max_concurrent := 1, priority_levels := 1 }
        { task_queues := [[]], active_tasks := [], running := false } exTask 0).1 = true
    ∧ (add_task { max_concurrent := 1, priority_levels := 1 }
        { task_queues := [[]], active_tasks := [], running := false } exTask 0).2.task_queues
      = [[exTask]] := by
  exact ⟨rfl, rfl, rfl⟩

/-- C6 amended: `add_task` never reads the running flag — its result and
its effect on the queues are identical whether the manager is stopped or
running, so a stopped agent still enqueues valid submissions. -/
theorem add_task_independent_of_running (tm : TMConfig) (s : TMState) (task : Task)
    (priority : Int) (b : Bool) :
    (add_task tm { s with running := b } task priority).1
        = (add_task tm s task priority).1
    ∧ (add_task tm { s with running := b } task priority).2.task_queues
        = (add_task tm s task priority).2.task_queues
    ∧ (add_task tm { s with running := b } task priority).2.active_tasks
        = (add_task tm s task priority).2.active_tasks := by
  unfold add_task
  split <;> simp

/-- C2: over every sequence of start, stop, submit (`add_task`), cancel
(`stop_task`) and scheduler-tick operations, with any backend results,
device directories and send results, the active task table never holds more
than `max_concurrent` entries: the tick admits a new task only while
`len(active_tasks) < max_concurrent`, and no other operation grows the
table. -/
theorem active_tasks_bounded (tm : TMConfig) (backend : Backend) (ops : List Op) :
    (runOps tm backend (initState tm) ops).1.active_tasks.length ≤ tm.max_concurrent := by
  have main : ∀ (l : List Op) (s : TMState), s.active_tasks.length ≤ tm.max_concurrent →
      (runOps tm backend s l).1.active_tasks.length ≤ tm.max_concurrent := by
    intro l
    induction l with
    | nil =>
      intro s h
      exact h
    | cons op rest ih =>
      intro s h
      exact ih _ (runOp_active_le tm backend s op h)
  exact main ops (initState tm) (by simp [initState])

/-- C4: a task that the local desktop adapter can execute
(`can_execute_task` true: required capabilities present and truthy, and
every required resource quantity available) is never passed to the
migration step `_try_migrate_task` in any reachable execution of the
scheduler loop — migration is only reached on the `can_execute_task =
False` branch. -/
theorem locally_executable_never_migrated (tm : TMConfig) (capabilities : Dict Bool)
    (available : Dict Nat) (execOk : Task → Bool) (stopOk : String → Bool)
    (ops : List Op) (t : Task)
    (h : can_execute_task capabilities available t = true) :
    t ∉ (runOps tm (desktopBackend capabilities available execOk stopOk)
          (initState tm) ops).2 := by
  intro hmem
  have hf := runOps_migrated_canExec tm (desktopBackend capabilities available execOk stopOk)
    ops (initState tm) t hmem
  simp [desktopBackend, h] at hf

/-- Witness for C4 at a concrete input: a wifi-requiring task on a
wifi-capable device is not migrated over a start / submit / tick run. -/
theorem locally_executable_never_migrated_witness :
    exTask ∉ (runOps tmEx (desktopBackend [("wifi", true)] [] (fun _ => true) (fun _ => true))
        (initState tmEx) [Op.start, Op.add exTask 0, Op.tick [] (fun _ => true)]).2 :=
  locally_executable_never_migrated tmEx [("wifi", true)] [] (fun _ => true) (fun _ => true)
    [Op.start, Op.add exTask 0, Op.tick [] (fun _ => true)] exTask (by decide)

/-- C3 counterexample, refuting two parts of the claim at concrete inputs.
(a) A device whose capability dict holds `camera` with a falsy value: by the
claim's eligibility ("present (truthy)") the device is not eligible so no
send may be attempted, but `_try_migrate_task` tests only key membership —
it sends the offer and pops the queue.  (b) Two eligible devices where the
send to the first fails: the loop does not stop at the first eligible
device — it also offers the task to the second. -/
theorem migration_eligibility_counterexample :
    (migrationEligibleSpec { capabilities := [("camera", false)] } camTask = false
      ∧ (tryMigrateTask [("d1", { capabilities := [("camera", false)] })] (fun _ => true)
            camTask 0 [[camTask]]).1
          = [("d1", taskOffer camTask 0)]
      ∧ (tryMigrateTask [("d1", { capabilities := [("camera", false)] })] (fun _ => true)
            camTask 0 [[camTask]]).2 = [[]])
    ∧ ((tryMigrateTask
          [("d1", { capabilities := [("camera", true)] }),
           ("d2", { capabilities := [("camera", true)] })]
          (fun did => did == "d2") camTask 0 [[camTask]]).1.map Prod.fst
        = ["d1", "d2"]) := by
  exact ⟨⟨rfl, rfl, rfl⟩, rfl⟩

/-- C3 amended: in one `_try_migrate_task` attempt for the task at the head
of the priority-`p` queue: (1) a device is eligible iff every name in the
task's `required_capabilities` is present **as a key** of the device's
capability dict — the capability's value is not inspected and remote
resource quantities are not checked; (2) every message sent is the task
offer `{type: 'task', task, priority}` and goes to an eligible device;
(3) the send targets are a take-prefix of the eligible devices in directory
order, (4) every send before the last was rejected by the transport, and
(5) the scan stops only by exhausting the eligible devices (one offer each,
all rejected) or with an accepted final offer — together (3)–(5) say the
offers go to the eligible devices in directory order, stopping exactly at
the first accepted send; (6) the head of the priority-`p` queue is removed
iff some eligible device accepts the send, and the queues are unchanged
otherwise; (7) when no device is eligible, no send is attempted and the
queues are unchanged. -/
theorem try_migrate_task_behavior (devices : List (String × DeviceRecord))
    (sendOk : String → Bool) (task : Task) (priority : Nat) (queues : List (List Task)) :
    (∀ info : DeviceRecord, migrationEligible info task = true ↔
        ∀ cap ∈ task.required_capabilities, dictHasKey info.capabilities cap = true)
    ∧ (∀ e ∈ (tryMigrateTask devices sendOk task priority queues).1,
        e.2 = taskOffer task priority
        ∧ ∃ info, (e.1, info) ∈ devices ∧ migrationEligible info task = true)
    ∧ (∃ k, (tryMigrateTask devices sendOk task priority queues).1.map Prod.fst
        = ((devices.filter (fun d => migrationEligible d.2 task)).map Prod.fst).take k)
    ∧ (∀ e ∈ (tryMigrateTask devices sendOk task priority queues).1.dropLast,
        sendOk e.1 = false)
    ∧ ((tryMigrateTask devices sendOk task priority queues).1.length
          = (devices.filter (fun d => migrationEligible d.2 task)).length
        ∨ ∃ e, (tryMigrateTask devices sendOk task priority queues).1.getLast? = some e
            ∧ sendOk e.1 = true)
    ∧ ((tryMigrateTask devices sendOk task priority queues).2
        = if devices.any (fun d => migrationEligible d.2 task && sendOk d.1)
          then popHead queues priority else queues)
    ∧ ((∀ d ∈ devices, migrationEligible d.2 task = false) →
        (tryMigrateTask devices sendOk task priority queues).1 = []
        ∧ (tryMigrateTask devices sendOk task priority queues).2 = queues) := by
  refine ⟨fun info => by simp [migrationEligible, List.all_eq_true],
    tryMigrateGo_sends_spec sendOk task priority queues devices,
    tryMigrateGo_sends_order sendOk task priority queues devices,
    tryMigrateGo_sends_fail_before_last sendOk task priority queues devices,
    tryMigrateGo_sends_stop sendOk task priority queues devices,
    tryMigrateGo_queues_eq sendOk task priority queues devices, ?_⟩
  intro hnone
  have hq := tryMigrateGo_queues_eq sendOk task priority queues devices
  have hany : devices.any (fun d => migrationEligible d.2 task && sendOk d.1) = false := by
    rw [List.any_eq_false]
    intro d hd
    simp [hnone d hd]
  constructor
  · rcases tryMigrateGo_sends_order sendOk task priority queues devices with ⟨k, hk⟩
    have hfil : devices.filter (fun d => migrationEligible d.2 task) = [] :=
      List.filter_eq_nil_iff.mpr (fun d hd => by simp [hnone d hd])
    rw [hfil] at hk
    simpa using hk
  · rw [tryMigrateTask, hq, hany]
    simp

/-- Witness for C3 (amended) at a concrete input: with a single device
having no capability entries, no offer is sent for a camera-requiring
task. -/
theorem try_migrate_task_behavior_witness :
    (tryMigrateTask [("d1", { capabilities := [] })] (fun _ => true) camTask 0 [[camTask]]).1
      = [] :=
  ((try_migrate_task_behavior [("d1", { capabilities := [] })] (fun _ => true) camTask 0
      [[camTask]]).2.2.2.2.2.2 (by decide)).1

/-- C7 (code bug): evaluation of one discovery cycle at the failing input.
Device `d1` was last observed at time 0; the cycle runs at time 100 with
`discovery_interval = 30`, and no protocol handler reports `d1`, so `d1` is
overdue by the claim's `2 × discovery_interval` staleness rule (first
conjunct).  The claim requires `d1` to remain in the directory with status
`'disconnected'`; instead the cycle rebuilds `available_devices` from only
the devices discovered this cycle — hard-deleting `d1` — and, because the
staleness sweep iterates that freshly-stamped replacement, `d1`'s status
stays `'new'` and no `'disconnected'` notification is emitted
(src/agent/communication/communication_layer.py:157-165; the sweep marked
"Check for disconnected devices" can never see a non-re-observed device). -/
theorem discovery_drops_unseen_device :
    30 * 2 < 100 - (dictGet staleCommState.available_devices "d1" {}).last_seen
    ∧ (discoveryCycle 30 100 100 staleCommState
        [("wifi", []), ("bluetooth", [])]).1.available_devices = []
    ∧ dictFind (discoveryCycle 30 100 100 staleCommState
        [("wifi", []), ("bluetooth", [])]).1.device_status "d1" = some "new"
    ∧ (discoveryCycle 30 100 100 staleCommState [("wifi", []), ("bluetooth", [])]).2 = [] := by
  exact ⟨by decide, rfl, rfl, rfl⟩

/-- C9: dispatch order of one scheduler tick.  Across queues, dispatch is
strictly priority-first: the priorities of the tasks considered during the
tick are non-decreasing, and (when the manager runs with a free slot) the
first task considered is exactly the `findTask` selection — the head of the
lowest-indexed non-empty queue (`findTask_spec`).  Within one priority
queue, dispatch is FIFO: the tasks dispatched from priority `p` during the
tick form a sublist of queue `p` in queue order, so if `A` sits ahead of
`B` in the same queue and both are dispatched this tick, `A` is dispatched
no later than `B`. -/
theorem scheduler_dispatch_order (tm : TMConfig) (backend : Backend)
    (devices : List (String × DeviceRecord)) (sendOk : String → Bool) (s : TMState) :
    List.Chain' (fun a b => a ≤ b)
      ((schedulerTick tm backend devices sendOk s).2.considered.map Prod.fst)
    ∧ (∀ p : Nat,
        (((schedulerTick tm backend devices sendOk s).2.dispatched.filter
            (fun e => e.1 == p)).map Prod.snd).Sublist (queueAt s.task_queues p))
    ∧ (s.running = true → s.active_tasks.length < tm.max_concurrent →
        (schedulerTick tm backend devices sendOk s).2.considered.head?
          = findTask s.task_queues) := by
  unfold schedulerTick
  split
  · obtain ⟨dc, dd, hc, hd, hmem, hch, hsub, hdrop, hhead, hnil⟩ :=
      schedTickGo_order_spec tm backend devices sendOk (totalQueued s.task_queues + 1) s
        TickTrace.empty
    refine ⟨?_, ?_, ?_⟩
    · rw [hc]
      simpa [TickTrace.empty] using hch
    · intro p
      rw [hd]
      simpa [TickTrace.empty] using hsub p
    · intro _ hlt
      rw [hc]
      rcases hft : findTask s.task_queues with _ | pt
      · rw [hnil hft]
        simp [TickTrace.empty]
      · have hdc := hhead (Nat.succ_pos _) hlt pt hft
        simp [TickTrace.empty, hdc]
  · rename_i hrun
    refine ⟨by simp [TickTrace.empty], fun p => by simp [TickTrace.empty], fun hr _ => absurd hr hrun⟩

/-- Witness for C9 at a concrete input: on a running manager with a free
slot and queues `[[exTask], []]`, the first task considered by the tick is
the `findTask` selection. -/
theorem scheduler_dispatch_order_witness :
    (schedulerTick tmEx (desktopBackend [("wifi", true)] [] (fun _ => true) (fun _ => true))
        [] (fun _ => true)
        { task_queues := [[exTask], []], active_tasks := [], running := true }).2.considered.head?
      = findTask [[exTask], []] :=
  (scheduler_dispatch_order tmEx
      (desktopBackend [("wifi", true)] [] (fun _ => true) (fun _ => true)) [] (fun _ => true)
      { task_queues := [[exTask], []], active_tasks := [], running := true }).2.2
    rfl (by decide)

/-- C10: `stop_task` is atomic with respect to backend failure — for an
active `task_id`, when the device adapter's stop fails the call returns
`false` with the state (in particular the active table) unchanged; the
entry is removed exactly when the adapter's stop succeeds; for an unknown
`task_id` it returns `false` and changes nothing. -/
theorem stop_task_atomic (backendStop : String → Bool) (s : TMState) (tid : String) :
    (dictHasKey s.active_tasks tid = true → backendStop tid = false →
        stop_task backendStop s tid = (false, s))
    ∧ (dictHasKey s.active_tasks tid = true → backendStop tid = true →
        (stop_task backendStop s tid).1 = true
        ∧ (stop_task backendStop s tid).2.active_tasks = dictDel s.active_tasks tid
        ∧ dictHasKey (stop_task backendStop s tid).2.active_tasks tid = false
        ∧ (stop_task backendStop s tid).2.task_queues = s.task_queues
        ∧ (stop_task backendStop s tid).2.running = s.running)
    ∧ (dictHasKey s.active_tasks tid = false → stop_task backendStop s tid = (false, s))
    ∧ ((stop_task backendStop s tid).1 = false → (stop_task backendStop s tid).2 = s) := by
  unfold stop_task
  rcases h : dictHasKey s.active_tasks tid with _ | _
  · simp
  · rcases hb : backendStop tid with _ | _
    · simp
    · simp [dictHasKey_dictDel]

/-- Witness for C10 at a concrete input: stopping the one active task with
a succeeding backend returns `true` and empties the active table. -/
theorem stop_task_atomic_witness :
    (stop_task (fun _ => true)
        { task_queues := [[]], active_tasks := [("t1", exTask)], running := true } "t1").1 = true :=
  ((stop_task_atomic (fun _ => true)
      { task_queues := [[]], active_tasks := [("t1", exTask)], running := true } "t1").2.1
    rfl rfl).1

end Symbiote
